import Mathlib

/-!
Verification of the BFT client-side authority aggregator
(`crates/sui-core/src/authority_aggregator.rs`) against its
natural-language specification.

The embedding models the pure protocol logic of the aggregator: reducer
state machines folded over the list of validator responses in arrival
order, the per-validator map functions, and the error-classification
paths.  Machine integers (`StakeUnit`) are modelled as `Nat`; fallible
Rust code returns `Except`; `HashSet`/`HashMap` membership is modelled by
association lists with the same insert/lookup semantics.  Network timing
is abstracted away: a quorum-driver run is a fold over the prefix of
responses that arrive before the dynamic timeout budget is exhausted.
-/

namespace AuthAgg

/-- Authority names are opaque identifiers (derived from public keys in Rust). -/
abbrev AuthorityName := Nat

/-- Stake units (`StakeUnit = u64` in Rust). -/
abbrev StakeUnit := Nat

/-- Transaction digests are opaque content hashes. -/
abbrev TransactionDigest := Nat

/-- Digests of `TransactionEffects`. -/
abbrev EffectsDigest := Nat

/-- Opaque signature values (`AuthoritySignature`). -/
abbrev Sig := Nat

/-- Validator-level errors as seen by the aggregator's reducers and map
functions.  These model the `SuiError` values carried in validator
responses; the aggregator only pattern-matches on `ObjectErrors`,
stores `TimeoutError` for per-call timeouts, fabricates
`ByzantineAuthoritySuspicion`, and otherwise treats them as opaque
comparable values (`code n`). -/
inductive VError where
  | objectErrors
  | timeoutErr
  | byzantineSuspicion (authority : AuthorityName)
  | unexpectedResponse
  | code (n : Nat)
deriving DecidableEq, Repr

/-- Aggregate-level `SuiError` values produced by the aggregator itself.
Validator-level errors are included via the `v` constructor (in Rust both
levels inhabit the single `SuiError` enum). -/
inductive AggError where
  | v (e : VError)
  | quorumNotReached (errors : List VError)
  | quorumFailedToExecuteCertificate (errors : List VError)
  | tooManyIncorrectAuthorities (errors : List (AuthorityName × VError))
  | timeoutError
  | authorityInformationUnavailable
  | authorityUpdateFailure
  | noCertificate
deriving DecidableEq, Repr

/-- `ReduceOutput<S>` from the source: the verdict a reducer returns for
one folded response. -/
inductive ReduceOutput (S : Type) where
  | more (s : S)
  | moreWithTimeout (s : S) (d : Nat)
  | finish (s : S)
deriving Repr

/-- How a quorum-driver run came to a (non-error) stop: either the reducer
returned `End` (`finish`), or both the pending responses and the timeout
budget were exhausted. -/
inductive QDOutcome (S : Type) where
  | ended (s : S)
  | exhausted (s : S)
deriving Repr

/-- The state carried by either `QDOutcome` constructor. -/
def QDOutcome.state {S : Type} : QDOutcome S → S
  | .ended s => s
  | .exhausted s => s

/-- The inner while-loop of `quorum_map_then_reduce_with_timeout_and_prefs`
(lines 605-628): fold the responses, in arrival order, through the
reducer.  `rs` is the sequence of responses delivered before the dynamic
timeout budget ran out (an empty remainder models both `Ok(None)` stream
exhaustion and `Err` of the `timeout` combinator, which exit the loop the
same way).  The reducer receives the committee weight of the responding
authority, exactly as the source computes `authority_weight`. -/
def quorumLoop {S R E : Type} (reduce : S → AuthorityName → StakeUnit → R → Except E (ReduceOutput S))
    (w : AuthorityName → StakeUnit) : S → List (AuthorityName × R) → Except E (QDOutcome S)
  | s, [] => .ok (.exhausted s)
  | s, (n, r) :: rs =>
    match reduce s n (w n) r with
    | .error e => .error e
    | .ok (.more s1) => quorumLoop reduce w s1 rs
    | .ok (.moreWithTimeout s1 _) => quorumLoop reduce w s1 rs
    | .ok (.finish s1) => .ok (.ended s1)

/-- `quorum_map_then_reduce_with_timeout`: the loop result with the
outcome tag erased — both loop exits return `Ok(accumulated_state)`
(line 629), while a reducer `Err` propagates. -/
def quorumMapThenReduce {S R E : Type}
    (reduce : S → AuthorityName → StakeUnit → R → Except E (ReduceOutput S))
    (w : AuthorityName → StakeUnit) (s : S) (rs : List (AuthorityName × R)) : Except E S :=
  (quorumLoop reduce w s rs).map QDOutcome.state

/-- A `TransactionInfoResponse` as consumed by `process_certificate` and
`execute_cert_to_true_effects`: only the `signed_effects` field is
inspected there, so the rest is abstracted to a tag value. -/
structure TxInfoResponse where
  signedEffectsDigest : Option EffectsDigest
  payload : Nat
deriving DecidableEq, Repr

/-- Trace of one run of `process_certificate`'s per-validator map
function: the returned result, whether `sync_certificate_to_authority`
was invoked, and how many times `handle_certificate` was called. -/
structure CertMapTrace where
  result : Except AggError TxInfoResponse
  syncAttempted : Bool
  handleCalls : Nat
deriving Repr

/-- A certificate as the aggregator constructs and consumes it: the list
of `(AuthorityName, AuthoritySignature)` pairs of its `auth_sign_info`. -/
structure Certificate where
  sigs : List (AuthorityName × Sig)
deriving DecidableEq, Repr

/-- Modelled from the spec: `CertifiedTransaction::new_with_signatures`
is defined in `sui-types`, outside these sources.  Per the spec,
"once Q signatures are gathered, a certificate is constructed in a single
step that also verifies the aggregate"; the constructed value carries the
gathered signature list, and the committee verification is an external
check treated as succeeding on the committee-consistent signatures the
reducer gathered. -/
def newWithSignatures (sigs : List (AuthorityName × Sig)) : Certificate := ⟨sigs⟩

/-- The part of a `handle_transaction` response that
`process_transaction`'s reducer inspects: the `certified_transaction`
and `signed_transaction` fields of `TransactionInfoResponse` (for the
latter, only its `auth_sign_info.signature`). -/
structure TxResponse where
  certifiedTransaction : Option Certificate
  signedSignature : Option Sig
deriving DecidableEq, Repr

/-- `true` exactly for responses matching the reducer's first arm
(`certified_transaction: Some(..)`, line 1237). -/
def isCertifiedResp : Except VError TxResponse → Bool
  | .ok r => r.certifiedTransaction.isSome
  | .error _ => false

/-- Reducer state of `process_transaction` (struct
`ProcessTransactionState`, lines 1202-1212). -/
structure PTState where
  signatures : List (AuthorityName × Sig)
  certificate : Option Certificate
  errors : List VError
  good_stake : StakeUnit
  bad_stake : StakeUnit
deriving DecidableEq, Repr

/-- The initial `ProcessTransactionState` (lines 1214-1220). -/
def initialPTState : PTState := ⟨[], none, [], 0, 0⟩

/-- The match block of `process_transaction`'s reducer (lines 1233-1296):
fold one response into the state.  A previously-formed certificate is
stored; a signed vote appends `(name, signature)` and adds stake to
`good_stake`, constructing the certificate once `good_stake ≥ threshold`;
an error (or a response with neither field, the `ret` catch-all arm)
appends to `errors` and adds stake to `bad_stake`. -/
def applyTxResponse (threshold : StakeUnit) (s : PTState) (name : AuthorityName)
    (weight : StakeUnit) (result : Except VError TxResponse) : PTState :=
  match result with
  | .ok r =>
    match r.certifiedTransaction, r.signedSignature with
    | some c, _ => { s with certificate := some c }
    | none, some sig =>
      let s1 := { s with signatures := s.signatures ++ [(name, sig)],
                         good_stake := s.good_stake + weight }
      if s1.good_stake ≥ threshold then
        { s1 with certificate := some (newWithSignatures s1.signatures) }
      else s1
    | none, none =>
      { s with errors := s.errors ++ [VError.unexpectedResponse],
               bad_stake := s.bad_stake + weight }
  | .error e =>
    { s with errors := s.errors ++ [e], bad_stake := s.bad_stake + weight }

/-- The `bad_stake > validity` failure classification of
`process_transaction` (lines 1313-1322): collapse the collected errors to
the set of distinct ones; if exactly one distinct error was collected and
`good_stake = 0`, surface it verbatim, otherwise wrap the distinct errors
in `QuorumNotReached`. -/
def classifyQuorumFailure (errors : List VError) (good_stake : StakeUnit) : AggError :=
  let unique := errors.dedup
  if unique.length = 1 ∧ good_stake = 0 then .v (unique.headD .unexpectedResponse)
  else .quorumNotReached unique

/-- The reducer of `process_transaction` (lines 1231-1331): fold the
response, fail when `bad_stake > validity`, otherwise `End` as soon as a
certificate is present and `Continue` otherwise. -/
def processTxReduce (threshold validity : StakeUnit) (s : PTState) (name : AuthorityName)
    (weight : StakeUnit) (result : Except VError TxResponse) :
    Except AggError (ReduceOutput PTState) :=
  let s1 := applyTxResponse threshold s name weight result
  if s1.bad_stake > validity then .error (classifyQuorumFailure s1.errors s1.good_stake)
  else if s1.certificate.isSome then .ok (.finish s1) else .ok (.more s1)

/-- The quorum-driver run of `process_transaction`: fold the responses
that arrive, in arrival order, from the initial state. -/
def runProcessTransaction (threshold validity : StakeUnit) (w : AuthorityName → StakeUnit)
    (rs : List (AuthorityName × Except VError TxResponse)) :
    Except AggError (QDOutcome PTState) :=
  quorumLoop (processTxReduce threshold validity) w initialPTState rs

/-- Total stake, under weight function `w`, of the signers appearing in a
signature list. -/
def sigStake (w : AuthorityName → StakeUnit) (sigs : List (AuthorityName × Sig)) : StakeUnit :=
  (sigs.map (fun p => w p.1)).sum

/-- The per-validator map function of `process_certificate`
(lines 1406-1461).  `h1` is the result of the first `handle_certificate`
call, `sync` the result `sync_certificate_to_authority` would produce if
invoked, and `h2` the result the retry `handle_certificate` call would
produce if invoked. -/
def processCertMapStep (h1 : Except VError TxInfoResponse) (sync : Except AggError Unit)
    (h2 : Except VError TxInfoResponse) : CertMapTrace :=
  match h1 with
  | .ok r => ⟨.ok r, false, 1⟩
  | .error e =>
    if e = VError.objectErrors then
      match sync with
      | .error se => ⟨.error se, true, 1⟩
      | .ok _ => ⟨h2.mapError AggError.v, true, 2⟩
    else ⟨.error (.v e), false, 1⟩

/-- Association-list read modelling `HashMap` lookup with a default of
`0` (the `entry(..).or_insert(0)` reads of stake tallies). -/
def stakeOf (m : List (EffectsDigest × StakeUnit)) (d : EffectsDigest) : StakeUnit :=
  match m.find? (fun p => p.1 == d) with
  | some p => p.2
  | none => 0

/-- Association-list write modelling `HashMap` insert: any previous entry
for the key is replaced. -/
def mapSet (m : List (EffectsDigest × StakeUnit)) (d : EffectsDigest) (x : StakeUnit) :
    List (EffectsDigest × StakeUnit) :=
  (d, x) :: m.filter (fun p => ¬(p.1 == d))

/-- A `SignedTransactionEffects` as consumed by
`execute_cert_to_true_effects`: its effects digest plus an opaque rest. -/
structure SignedEffects where
  digest : EffectsDigest
  payload : Nat
deriving DecidableEq, Repr

/-- Reducer state of `execute_cert_to_true_effects` (struct
`ExecuteCertState`, lines 1847-1854). -/
structure ExecState where
  cumulative_weight : StakeUnit
  good_weight : StakeUnit
  digests : List (EffectsDigest × StakeUnit)
  true_effects : Option SignedEffects
  errors : List (AuthorityName × VError)
deriving DecidableEq, Repr

/-- The initial `ExecuteCertState` (lines 1863-1869). -/
def initialExecState : ExecState := ⟨0, 0, [], none, []⟩

/-- The match block of `execute_cert_to_true_effects`'s reducer
(lines 1889-1918): add the responder's stake to `cumulative_weight`; on
signed effects add it to `good_weight` and to that effects digest's
tally, reporting the effects (second component) when the tally reaches
the validity threshold; otherwise record an error
(`ByzantineAuthoritySuspicion` for an `Ok` without effects). -/
def execApply (validity : StakeUnit) (s : ExecState) (name : AuthorityName)
    (weight : StakeUnit) (r : Except VError (Option SignedEffects)) :
    ExecState × Option SignedEffects :=
  let s0 := { s with cumulative_weight := s.cumulative_weight + weight }
  match r with
  | .ok (some eff) =>
    let s1 := { s0 with good_weight := s0.good_weight + weight }
    let newStake := stakeOf s1.digests eff.digest + weight
    let s2 := { s1 with digests := mapSet s1.digests eff.digest newStake }
    if newStake ≥ validity then (s2, some eff) else (s2, none)
  | .ok none =>
    ({ s0 with errors := s0.errors ++ [(name, .byzantineSuspicion name)] }, none)
  | .error e =>
    ({ s0 with errors := s0.errors ++ [(name, e)] }, none)

/-- The reducer of `execute_cert_to_true_effects` (lines 1887-1935): when
a digest tally reached the validity threshold, store the effects in
`true_effects` and `End`; otherwise `End` when
`weight_remaining + good_weight < validity` (validity now impossible) and
`Continue` otherwise.  The reducer itself never returns an error. -/
def execCertReduce (validity totalWeight : StakeUnit) (s : ExecState) (name : AuthorityName)
    (weight : StakeUnit) (r : Except VError (Option SignedEffects)) :
    Except AggError (ReduceOutput ExecState) :=
  match execApply validity s name weight r with
  | (s1, some eff) => .ok (.finish { s1 with true_effects := some eff })
  | (s1, none) =>
    if totalWeight - s1.cumulative_weight + s1.good_weight < validity then .ok (.finish s1)
    else .ok (.more s1)

/-- `execute_cert_to_true_effects` (lines 1841-1948): run the fan-out and
then `true_effects.ok_or(TooManyIncorrectAuthorities { errors })`. -/
def runExecuteCert (validity totalWeight : StakeUnit) (w : AuthorityName → StakeUnit)
    (rs : List (AuthorityName × Except VError (Option SignedEffects))) :
    Except AggError SignedEffects :=
  match quorumLoop (execCertReduce validity totalWeight) w initialExecState rs with
  | .error e => .error e
  | .ok o =>
    match o.state.true_effects with
    | some eff => .ok eff
    | none => .error (.tooManyIncorrectAuthorities o.state.errors)

/-- Completion of one per-authority request inside `quorum_once_inner`:
the per-call `timeout(..)` either elapsed or delivered the call's
result. -/
inductive ReqOutcome where
  | elapsed
  | completed (r : Except VError Nat)
deriving Repr

/-- The tagged event union of `quorum_once_inner`'s fan-in
(lines 659-662): the hedging interval timer fired, or a request to the
named authority finished. -/
inductive HedgeEvent where
  | startNext
  | request (name : AuthorityName) (out : ReqOutcome)
deriving Repr

/-- `HashMap::insert` on the `authority_errors` map: replace any previous
entry for the authority. -/
def errMapInsert (m : List (AuthorityName × VError)) (n : AuthorityName) (e : VError) :
    List (AuthorityName × VError) :=
  (n, e) :: m.filter (fun p => ¬(p.1 == n))

/-- The event loop of `quorum_once_inner` (lines 708-742) as observed by
the `authority_errors` map: a fired interval timer only schedules more
work; a request that hit its per-call timeout records `TimeoutError`
under the authority; a request that completed with an error records that
error; a request that completed successfully returns its value.
Exhausting the event list (`inr`) models the loop still running — with
its error map so far — at the moment an outer total timeout fires. -/
def runHedgeEvents : List HedgeEvent → List (AuthorityName × VError) →
    Sum Nat (List (AuthorityName × VError))
  | [], m => .inr m
  | .startNext :: es, m => runHedgeEvents es m
  | .request n .elapsed :: es, m => runHedgeEvents es (errMapInsert m n .timeoutErr)
  | .request n (.completed (.error e)) :: es, m => runHedgeEvents es (errMapInsert m n e)
  | .request _ (.completed (.ok x)) :: _, _ => .inl x

/-- `quorum_once_with_timeout` under a total timeout (lines 785-797):
when the inner future completes first its result is returned; when the
total timeout elapses first (the event prefix ran out without a success)
the call fails with `TimeoutError` if the error map is empty and with
`TooManyIncorrectAuthorities{errors}` otherwise. -/
def quorumOnceTotalTimeout (events : List HedgeEvent) : Except AggError Nat :=
  match runHedgeEvents events [] with
  | .inl x => .ok x
  | .inr m =>
    .error (if m.isEmpty then .timeoutError else .tooManyIncorrectAuthorities m)

/-- `execute_transaction` (lines 1569-1584) observed together with the
number of times `total_tx_certificates_created` is incremented:
`process_transaction` (its result `pt`), then the counter increment, then
`process_certificate` (its result `pc cert`). -/
def executeTransaction (pt : Except AggError Certificate)
    (pc : Certificate → Except AggError EffectsDigest) :
    Except AggError (Certificate × EffectsDigest) × Nat :=
  match pt with
  | .error e => (.error e, 0)
  | .ok c =>
    match pc c with
    | .error e => (.error e, 1)
    | .ok eff => (.ok (c, eff), 1)

/-- The `BTreeMap` `Index` operation `self.authority_clients[&name]`:
`some` when the name is present, `none` marking the Rust panic on an
absent key. -/
def clientsIndex (clients : List (AuthorityName × Nat)) (name : AuthorityName) : Option Nat :=
  (clients.find? (fun p => p.1 == name)).map (fun p => p.2)

/-- Entry of `sync_authority_source_to_destination` (lines 252-254):
`let source_client = self.authority_clients[&source_authority]`, which
the source itself marks `TODO(panic): this panics`. -/
def syncSourceClientLookup (clients : List (AuthorityName × Nat))
    (source : AuthorityName) : Option Nat :=
  clientsIndex clients source

/-- Entry of `sync_certificate_to_authority_with_timeout`
(lines 395-398): `self.authority_clients[&destination_authority]`. -/
def syncDestClientLookup (clients : List (AuthorityName × Nat))
    (dest : AuthorityName) : Option Nat :=
  clientsIndex clients dest

/-- First dispatch of `quorum_once_inner` (line 704):
`authorities_shuffled.next().unwrap()` — `none` when the stake-weighted
shuffle is empty (for example under an empty `restrict_to` set), where
the Rust code panics on the `unwrap`. -/
def firstShuffledAuthority (shuffled : List AuthorityName) : Option AuthorityName :=
  shuffled.head?

/-- Reducer state of `get_object_by_id` (struct
`GetObjectByIDRequestState`, lines 827-832); the responses' payloads are
abstracted to a tag. -/
structure GetObjectState where
  good_weight : StakeUnit
  bad_weight : StakeUnit
  responses : List (AuthorityName × Except VError Nat)
deriving Repr

/-- The error sublist of the recorded responses (the `filter_map` of
lines 867-873). -/
def errsOfResponses (rs : List (AuthorityName × Except VError Nat)) :
    List (AuthorityName × VError) :=
  rs.filterMap (fun p => match p.2 with | .error e => some (p.1, e) | .ok _ => none)

/-- The reducer of `get_object_by_id` (lines 850-889): the responder's
stake is added to `good_weight` no matter whether the result is an error;
an error additionally adds it to `bad_weight`, failing with
`TooManyIncorrectAuthorities` when `bad_weight > validity`; otherwise the
wait budget shrinks to the post-quorum timeout once
`good_weight ≥ threshold`. -/
def getObjectByIdReduce (threshold validity postQ : StakeUnit) (s : GetObjectState)
    (name : AuthorityName) (weight : StakeUnit) (result : Except VError Nat) :
    Except AggError (ReduceOutput GetObjectState) :=
  let s1 := { s with good_weight := s.good_weight + weight,
                     responses := s.responses ++ [(name, result)] }
  match result with
  | .error _ =>
    let s2 := { s1 with bad_weight := s1.bad_weight + weight }
    if s2.bad_weight > validity then
      .error (.tooManyIncorrectAuthorities (errsOfResponses s2.responses))
    else if s2.good_weight < threshold then .ok (.more s2)
    else .ok (.moreWithTimeout s2 postQ)
  | .ok _ =>
    if s1.good_weight < threshold then .ok (.more s1)
    else .ok (.moreWithTimeout s1 postQ)

/-- Reducer state of `get_all_owned_objects` (struct
`OwnedObjectQueryState`, lines 974-981); object refs are abstracted to
`Nat`. -/
structure OwnedObjectState where
  good_weight : StakeUnit
  bad_weight : StakeUnit
  object_map : List (Nat × List AuthorityName)
  responded_authorities : List AuthorityName
  errors : List (AuthorityName × VError)
deriving DecidableEq, Repr

/-- `object_map.entry(obj_ref).or_insert_with(Vec::new).push(name)`
(lines 1013-1019) on the association-list model. -/
def objMapAdd (m : List (Nat × List AuthorityName)) (obj : Nat) (name : AuthorityName) :
    List (Nat × List AuthorityName) :=
  if (m.find? (fun p => p.1 == obj)).isSome then
    m.map (fun p => if p.1 == obj then (p.1, p.2 ++ [name]) else p)
  else m ++ [(obj, [name])]

/-- The reducer of `get_all_owned_objects` (lines 998-1045): the
responder's stake is added to `good_weight` no matter whether the result
is an error; a success records the responder and its objects; an error
adds the stake to `bad_weight` as well, failing with
`TooManyIncorrectAuthorities` when `bad_weight > validity`; the wait
budget shrinks to `timeout_after_quorum` once `good_weight ≥ threshold`. -/
def getAllOwnedReduce (threshold validity postQ : StakeUnit) (s : OwnedObjectState)
    (name : AuthorityName) (weight : StakeUnit) (result : Except VError (List Nat)) :
    Except AggError (ReduceOutput OwnedObjectState) :=
  let s1 := { s with good_weight := s.good_weight + weight }
  match result with
  | .ok object_ids =>
    let s2 := { s1 with responded_authorities := s1.responded_authorities ++ [name],
                        object_map := object_ids.foldl (fun m o => objMapAdd m o name)
                          s1.object_map }
    if s2.good_weight < threshold then .ok (.more s2)
    else .ok (.moreWithTimeout s2 postQ)
  | .error e =>
    let s2 := { s1 with errors := s1.errors ++ [(name, e)],
                        bad_weight := s1.bad_weight + weight }
    if s2.bad_weight > validity then .error (.tooManyIncorrectAuthorities s2.errors)
    else if s2.good_weight < threshold then .ok (.more s2)
    else .ok (.moreWithTimeout s2 postQ)

/-- A certificate as walked by
`sync_authority_source_to_destination`: identified by its digest. -/
structure SyncCert where
  digest : TransactionDigest
deriving DecidableEq, Repr

/-- The `TransactionInfoResponse` fields consumed by the sync walk: the
dependency digests of `signed_effects.effects` and the
`certified_transaction`. -/
structure SyncTxInfo where
  signedEffectsDeps : Option (List TransactionDigest)
  certifiedTransaction : Option SyncCert
deriving DecidableEq, Repr

/-- The three collaborators of the sync walk, as response oracles:
`cert_handler.handle` at the destination, `handle_certificate` at the
source, and `handle_transaction_info_request` at the source. -/
structure SyncOracles where
  destHandle : SyncCert → Except VError Unit
  sourceHandleCert : SyncCert → Except VError SyncTxInfo
  sourceTxInfo : TransactionDigest → Except VError SyncTxInfo

/-- The dependency fetch of the sync walk (lines 350-367): for each
dependency digest, in order, request its transaction info from the
source; a request error aborts, a missing certified transaction is
`AuthorityInformationUnavailable`. -/
def fetchDeps (src : TransactionDigest → Except VError SyncTxInfo) :
    List TransactionDigest → Except AggError (List SyncCert)
  | [] => .ok []
  | d :: ds =>
    match src d with
    | .error e => .error (.v e)
    | .ok info =>
      match info.certifiedTransaction with
      | none => .error .authorityInformationUnavailable
      | some c => (fetchDeps src ds).map (fun cs => c :: cs)

/-- Result of the sync walk, paired with the instrumented list of digests
the destination handled successfully. -/
inductive SyncOutcome where
  | success
  | failure (e : AggError)
  | fuelOut
deriving DecidableEq, Repr

/-- The while-loop of `sync_authority_source_to_destination`
(lines 267-368), faithful to the source including line 268: every
iteration computes `cert_digest = *cert.digest()` from the OUTER `cert`,
not from the popped `target_cert`, and uses it for the `processed` and
`attempted` membership tests and insertions and for the
`handle_transaction_info_request` digest.  The stack keeps its top at the
list head (`Vec::pop`/`push` act on the end); dependency certificates are
pushed in order, so they end up reversed on top of the re-pushed target.
Fuel bounds the recursion; the concrete runs below stay within it. -/
def syncLoop (o : SyncOracles) (cert : SyncCert) :
    Nat → List SyncCert → List TransactionDigest → List TransactionDigest →
    List TransactionDigest → SyncOutcome × List TransactionDigest
  | 0, _, _, _, log => (.fuelOut, log)
  | fuel + 1, stack, processed, attempted, log =>
    match stack with
    | [] => (.success, log)
    | target :: rest =>
      let cd := cert.digest
      if processed.contains cd then syncLoop o cert fuel rest processed attempted log
      else
        match o.destHandle target with
        | .ok _ =>
          syncLoop o cert fuel rest (cd :: processed) attempted (log ++ [target.digest])
        | .error e =>
          if e = VError.objectErrors then
            if attempted.contains cd then (.failure .authorityInformationUnavailable, log)
            else
              match (if rest.isEmpty then o.sourceHandleCert target else o.sourceTxInfo cd) with
              | .error e1 => (.failure (.v e1), log)
              | .ok info =>
                match info.signedEffectsDeps with
                | none => (.failure .authorityInformationUnavailable, log)
                | some deps =>
                  match fetchDeps o.sourceTxInfo deps with
                  | .error e1 => (.failure e1, log)
                  | .ok certs =>
                    syncLoop o cert fuel (certs.reverse ++ target :: rest) processed
                      (cd :: attempted) log
          else (.failure (.v e), log)

/-- Entry point of the sync walk: stack seeded with `cert`, empty
`processed` and `attempted` sets. -/
def syncAuthoritySourceToDestination (o : SyncOracles) (cert : SyncCert) (fuel : Nat) :
    SyncOutcome × List TransactionDigest :=
  syncLoop o cert fuel [cert] [] [] []

/-- Modelled from the spec: the same walk with the membership tests,
insertions and info request keyed by the POPPED certificate's digest, as
the spec prescribes ("keyed by transaction digest" of T; the spec flags
the source's use of the initial cert's digest as a latent bug). -/
def syncLoopSpecKeyed (o : SyncOracles) :
    Nat → List SyncCert → List TransactionDigest → List TransactionDigest →
    List TransactionDigest → SyncOutcome × List TransactionDigest
  | 0, _, _, _, log => (.fuelOut, log)
  | fuel + 1, stack, processed, attempted, log =>
    match stack with
    | [] => (.success, log)
    | target :: rest =>
      let cd := target.digest
      if processed.contains cd then syncLoopSpecKeyed o fuel rest processed attempted log
      else
        match o.destHandle target with
        | .ok _ =>
          syncLoopSpecKeyed o fuel rest (cd :: processed) attempted (log ++ [target.digest])
        | .error e =>
          if e = VError.objectErrors then
            if attempted.contains cd then (.failure .authorityInformationUnavailable, log)
            else
              match (if rest.isEmpty then o.sourceHandleCert target else o.sourceTxInfo cd) with
              | .error e1 => (.failure (.v e1), log)
              | .ok info =>
                match info.signedEffectsDeps with
                | none => (.failure .authorityInformationUnavailable, log)
                | some deps =>
                  match fetchDeps o.sourceTxInfo deps with
                  | .error e1 => (.failure e1, log)
                  | .ok certs =>
                    syncLoopSpecKeyed o fuel (certs.reverse ++ target :: rest) processed
                      (cd :: attempted) log
          else (.failure (.v e), log)

/-- Spec-keyed entry point (for comparison with the source behavior). -/
def syncSpecKeyedEntry (o : SyncOracles) (cert : SyncCert) (fuel : Nat) :
    SyncOutcome × List TransactionDigest :=
  syncLoopSpecKeyed o fuel [cert] [] [] []

/-- Oracle family exhibiting the digest-keying divergence: the
destination rejects certificate `0` with `ObjectErrors` but accepts
everything else; the source reports that certificate `0` depends on
transaction `1` and serves every transaction info request. -/
def keyingOracles : SyncOracles where
  destHandle := fun c => if c.digest = 0 then .error .objectErrors else .ok ()
  sourceHandleCert := fun _ => .ok ⟨some [1], none⟩
  sourceTxInfo := fun d => .ok ⟨some [], some ⟨d⟩⟩

end AuthAgg

namespace AuthAgg

/-- C6: `quorum_map_then_reduce_with_timeout` returns the state `S`
immediately when the reducer yields `End(S)` (no further responses are
folded), aborts with the reducer's error when the reducer yields a
failure, and — because the only error source of the loop is the reducer —
exhaustion of both the pending responses and the timeout budget returns
the accumulated state as a success, never as a failure. -/
theorem quorum_driver_outcomes {S R E : Type}
    (reduce : S → AuthorityName → StakeUnit → R → Except E (ReduceOutput S))
    (w : AuthorityName → StakeUnit) (s0 : S) (n : AuthorityName) (r : R)
    (rs : List (AuthorityName × R)) :
    (∀ s1, reduce s0 n (w n) r = .ok (.finish s1) →
      quorumMapThenReduce reduce w s0 ((n, r) :: rs) = .ok s1) ∧
    (∀ e, reduce s0 n (w n) r = .error e →
      quorumMapThenReduce reduce w s0 ((n, r) :: rs) = .error e) ∧
    ((∀ s1 n1 r1, ∃ o, reduce s1 n1 (w n1) r1 = .ok o) →
      ∃ s2, quorumMapThenReduce reduce w s0 rs = .ok s2) := by
  refine ⟨?_, ?_, ?_⟩
  · intro s1 h
    simp [quorumMapThenReduce, quorumLoop, h, QDOutcome.state, Except.map]
  · intro e h
    simp [quorumMapThenReduce, quorumLoop, h, Except.map]
  · intro htotal
    clear n r
    induction rs generalizing s0 with
    | nil => exact ⟨s0, rfl⟩
    | cons hd tl ih =>
      obtain ⟨o, ho⟩ := htotal s0 hd.1 hd.2
      cases o with
      | more s1 =>
        obtain ⟨s2, hs2⟩ := ih s1
        exact ⟨s2, by simpa [quorumMapThenReduce, quorumLoop, ho] using hs2⟩
      | moreWithTimeout s1 d =>
        obtain ⟨s2, hs2⟩ := ih s1
        exact ⟨s2, by simpa [quorumMapThenReduce, quorumLoop, ho] using hs2⟩
      | finish s1 =>
        exact ⟨s1, by simp [quorumMapThenReduce, quorumLoop, ho, QDOutcome.state, Except.map]⟩

/-- Witness for C6 at a concrete reducer that always continues. -/
theorem quorum_driver_outcomes_witness :
    ∃ s2, quorumMapThenReduce (S := Nat) (R := Nat) (E := AggError)
      (fun s _ _ r => .ok (.more (s + r))) (fun _ => 1) 0 [(0, 3), (1, 4)] = .ok s2 := by
  have h := quorum_driver_outcomes (S := Nat) (R := Nat) (E := AggError)
    (fun s _ _ r => .ok (.more (s + r))) (fun _ => 1) 0 0 0 [(0, 3), (1, 4)]
  exact h.2.2 (fun s1 n1 r1 => ⟨.more (s1 + r1), rfl⟩)

/-- C4: in `process_certificate`'s per-validator map function, a failure
from `handle_certificate` triggers `sync_certificate_to_authority`
exactly when the failure is `ObjectErrors`; when the sync succeeds the
`handle_certificate` call is retried exactly once and the retry's result
is returned (when the sync itself fails, its error is returned with no
retry); every failure other than `ObjectErrors` is returned to the
reducer as-is, with no sync and no retry, and a success is returned
directly. -/
theorem process_cert_recovery_ladder (h1 h2 : Except VError TxInfoResponse)
    (sync : Except AggError Unit) :
    ((processCertMapStep h1 sync h2).syncAttempted = true ↔ h1 = .error VError.objectErrors) ∧
    ((processCertMapStep h1 sync h2).handleCalls = 2 ↔
      (h1 = .error VError.objectErrors ∧ ∃ u, sync = .ok u)) ∧
    (∀ e, h1 = .error e → e ≠ VError.objectErrors →
      processCertMapStep h1 sync h2 = ⟨.error (.v e), false, 1⟩) ∧
    (∀ u, h1 = .error VError.objectErrors → sync = .ok u →
      processCertMapStep h1 sync h2 = ⟨h2.mapError AggError.v, true, 2⟩) ∧
    (∀ se, h1 = .error VError.objectErrors → sync = .error se →
      processCertMapStep h1 sync h2 = ⟨.error se, true, 1⟩) ∧
    (∀ r, h1 = .ok r → processCertMapStep h1 sync h2 = ⟨.ok r, false, 1⟩) := by
  cases h1 with
  | ok r => simp [processCertMapStep]
  | error e =>
    by_cases he : e = VError.objectErrors
    · subst he
      cases sync with
      | ok u => simp [processCertMapStep]
      | error se => simp [processCertMapStep]
    · simp [processCertMapStep, he]

/-- Witness for C4: `ObjectErrors` with a successful sync leads to
exactly two `handle_certificate` calls and the retry's result. -/
theorem process_cert_recovery_ladder_witness :
    processCertMapStep (.error VError.objectErrors) (.ok ())
      (.ok ⟨none, 7⟩) = ⟨.ok ⟨none, 7⟩, true, 2⟩ :=
  (process_cert_recovery_ladder (.error VError.objectErrors) (.ok ⟨none, 7⟩)
    (.ok ())).2.2.2.1 () rfl rfl

/-- Appending one signature adds exactly that signer's stake. -/
theorem sigStake_append (w : AuthorityName → StakeUnit) (sigs : List (AuthorityName × Sig))
    (name : AuthorityName) (sig : Sig) :
    sigStake w (sigs ++ [(name, sig)]) = sigStake w sigs + w name := by
  simp [sigStake]

/-- Loop invariant for `process_transaction` when no response carries a
previously-formed certificate: a `good_stake = Σ stake(signatures)` and
`certificate = none` state either ends with a certificate whose signer
stakes sum to at least the threshold, or exhausts with no certificate. -/
theorem pt_loop_invariant (t v : StakeUnit) (w : AuthorityName → StakeUnit) :
    ∀ (rs : List (AuthorityName × Except VError TxResponse)) (s : PTState),
    (∀ p ∈ rs, isCertifiedResp p.2 = false) →
    s.good_stake = sigStake w s.signatures → s.certificate = none →
    (∀ s2, quorumLoop (processTxReduce t v) w s rs = .ok (.ended s2) →
      ∃ c, s2.certificate = some c ∧ sigStake w c.sigs ≥ t) ∧
    (∀ s2, quorumLoop (processTxReduce t v) w s rs = .ok (.exhausted s2) →
      s2.certificate = none) := by
  intro rs
  induction rs with
  | nil =>
    intro s _ _ hcert
    constructor
    · intro s2 h
      simp [quorumLoop] at h
    · intro s2 h
      simp [quorumLoop] at h
      exact h ▸ hcert
  | cons p tl ih =>
    intro s hnc hgood hcert
    obtain ⟨n, r⟩ := p
    have hnc_hd : isCertifiedResp r = false := hnc (n, r) (by simp)
    have hnc_tl : ∀ p ∈ tl, isCertifiedResp p.2 = false := fun p hp => hnc p (by simp [hp])
    cases r with
    | error e =>
      by_cases hbad : s.bad_stake + w n > v
      · constructor <;> intro s2 h <;>
          simp [quorumLoop, processTxReduce, applyTxResponse, hbad] at h
      · have hstep : processTxReduce t v s n (w n) (.error e) =
            .ok (.more { s with errors := s.errors ++ [e], bad_stake := s.bad_stake + w n }) := by
          simp [processTxReduce, applyTxResponse, hbad, hcert]
        have := ih { s with errors := s.errors ++ [e], bad_stake := s.bad_stake + w n }
          hnc_tl (by simpa using hgood) (by simpa using hcert)
        constructor <;> intro s2 h
        · exact this.1 s2 (by simpa [quorumLoop, hstep] using h)
        · exact this.2 s2 (by simpa [quorumLoop, hstep] using h)
    | ok resp =>
      obtain ⟨ct, ss⟩ := resp
      cases ct with
      | some c => simp [isCertifiedResp] at hnc_hd
      | none =>
        cases ss with
        | none =>
          by_cases hbad : s.bad_stake + w n > v
          · constructor <;> intro s2 h <;>
              simp [quorumLoop, processTxReduce, applyTxResponse, hbad] at h
          · have hstep : processTxReduce t v s n (w n) (.ok ⟨none, none⟩) =
                .ok (.more { s with errors := s.errors ++ [VError.unexpectedResponse],
                                    bad_stake := s.bad_stake + w n }) := by
              simp [processTxReduce, applyTxResponse, hbad, hcert]
            have := ih { s with errors := s.errors ++ [VError.unexpectedResponse],
                                bad_stake := s.bad_stake + w n }
              hnc_tl (by simpa using hgood) (by simpa using hcert)
            constructor <;> intro s2 h
            · exact this.1 s2 (by simpa [quorumLoop, hstep] using h)
            · exact this.2 s2 (by simpa [quorumLoop, hstep] using h)
        | some sig =>
          by_cases hq : t ≤ s.good_stake + w n
          · by_cases hbad : s.bad_stake > v
            · have hstep : processTxReduce t v s n (w n) (.ok ⟨none, some sig⟩) =
                  .error (classifyQuorumFailure s.errors (s.good_stake + w n)) := by
                simp [processTxReduce, applyTxResponse, hq, hbad]
              constructor <;> intro s2 h <;> simp [quorumLoop, hstep] at h
            · have hstep : processTxReduce t v s n (w n) (.ok ⟨none, some sig⟩) =
                  .ok (.finish { s with signatures := s.signatures ++ [(n, sig)],
                                        good_stake := s.good_stake + w n,
                                        certificate :=
                                          some (newWithSignatures (s.signatures ++ [(n, sig)])) }) := by
                simp [processTxReduce, applyTxResponse, hq, hbad]
              constructor <;> intro s2 h
              · have h2 : ({ s with signatures := s.signatures ++ [(n, sig)],
                                    good_stake := s.good_stake + w n,
                                    certificate :=
                                      some (newWithSignatures (s.signatures ++ [(n, sig)])) }
                            : PTState) = s2 := by
                  simpa [quorumLoop, hstep] using h
                refine ⟨newWithSignatures (s.signatures ++ [(n, sig)]), ?_, ?_⟩
                · simp [← h2]
                · calc sigStake w (newWithSignatures (s.signatures ++ [(n, sig)])).sigs
                      = sigStake w s.signatures + w n := by
                        simp [newWithSignatures, sigStake_append]
                    _ = s.good_stake + w n := by rw [hgood]
                    _ ≥ t := hq
              · simp [quorumLoop, hstep] at h
          · by_cases hbad : s.bad_stake > v
            · have hstep : processTxReduce t v s n (w n) (.ok ⟨none, some sig⟩) =
                  .error (classifyQuorumFailure s.errors (s.good_stake + w n)) := by
                simp [processTxReduce, applyTxResponse, hq, hbad]
              constructor <;> intro s2 h <;> simp [quorumLoop, hstep] at h
            · have hstep : processTxReduce t v s n (w n) (.ok ⟨none, some sig⟩) =
                  .ok (.more { s with signatures := s.signatures ++ [(n, sig)],
                                      good_stake := s.good_stake + w n }) := by
                simp [processTxReduce, applyTxResponse, hq, hbad, hcert]
              have := ih { s with signatures := s.signatures ++ [(n, sig)],
                                  good_stake := s.good_stake + w n }
                hnc_tl (by simp [sigStake_append, hgood]) (by simpa using hcert)
              constructor <;> intro s2 h
              · exact this.1 s2 (by simpa [quorumLoop, hstep] using h)
              · exact this.2 s2 (by simpa [quorumLoop, hstep] using h)

/-- C1: in `process_transaction`, when the accumulated `good_stake` of
signed votes first reaches the quorum threshold `t`, the certificate is
constructed in that same reducer step from the gathered
`(name, signature)` list and the reducer returns `End`; and for any run
in which no validator returned a previously-formed certificate, every
certificate the run produces has signer stakes summing to at least `t`
(a run that merely exhausts its responses produces no certificate). -/
theorem process_transaction_quorum_formation (t v : StakeUnit)
    (w : AuthorityName → StakeUnit)
    (rs : List (AuthorityName × Except VError TxResponse))
    (hnc : ∀ p ∈ rs, isCertifiedResp p.2 = false) :
    (∀ (s : PTState) (name : AuthorityName) (sig : Sig) (weight : StakeUnit),
      s.certificate = none → s.bad_stake ≤ v → t ≤ s.good_stake + weight →
      processTxReduce t v s name weight (.ok ⟨none, some sig⟩) =
        .ok (.finish { s with signatures := s.signatures ++ [(name, sig)],
                              good_stake := s.good_stake + weight,
                              certificate :=
                                some (newWithSignatures (s.signatures ++ [(name, sig)])) })) ∧
    (∀ s2, runProcessTransaction t v w rs = .ok (.ended s2) →
      ∃ c, s2.certificate = some c ∧ sigStake w c.sigs ≥ t) ∧
    (∀ s2, runProcessTransaction t v w rs = .ok (.exhausted s2) →
      s2.certificate = none) := by
  have hinv := pt_loop_invariant t v w rs initialPTState hnc (by simp [initialPTState, sigStake])
    (by simp [initialPTState])
  refine ⟨?_, hinv.1, hinv.2⟩
  intro s name sig weight hcert hbad hq
  simp [processTxReduce, applyTxResponse, hq, Nat.not_lt.mpr hbad]

/-- Witness for C1: a committee of four unit-stake validators with
`Q = 3`; three signed votes form a certificate whose signer stake is 3. -/
theorem process_transaction_quorum_formation_witness :
    ∃ c, ∃ s2, runProcessTransaction 3 2 (fun _ => 1)
        [(0, .ok ⟨none, some 10⟩), (1, .ok ⟨none, some 11⟩), (2, .ok ⟨none, some 12⟩)] =
        .ok (.ended s2) ∧ s2.certificate = some c ∧ sigStake (fun _ => 1) c.sigs ≥ 3 := by
  have h := process_transaction_quorum_formation 3 2 (fun _ => 1)
    [(0, .ok ⟨none, some 10⟩), (1, .ok ⟨none, some 11⟩), (2, .ok ⟨none, some 12⟩)]
    (by decide)
  have hrun : runProcessTransaction 3 2 (fun _ => 1)
      [(0, .ok ⟨none, some 10⟩), (1, .ok ⟨none, some 11⟩), (2, .ok ⟨none, some 12⟩)] =
      .ok (.ended ⟨[(0, 10), (1, 11), (2, 12)], some ⟨[(0, 10), (1, 11), (2, 12)]⟩, [], 3, 0⟩) := by
    rfl
  obtain ⟨c, hc, hstake⟩ := h.2.1 _ hrun
  exact ⟨c, _, hrun, hc, hstake⟩

/-- C3: `process_transaction`'s reducer fails exactly when the updated
`bad_stake` exceeds the validity threshold `v`, and in that case the
error is the single collected error surfaced verbatim when exactly one
distinct error was collected and `good_stake = 0`, and otherwise
`QuorumNotReached` carrying the distinct collected errors. -/
theorem process_transaction_error_classification (t v : StakeUnit) (s : PTState)
    (name : AuthorityName) (weight : StakeUnit) (result : Except VError TxResponse) :
    ((∃ e, processTxReduce t v s name weight result = .error e) ↔
      (applyTxResponse t s name weight result).bad_stake > v) ∧
    ((applyTxResponse t s name weight result).bad_stake > v →
      processTxReduce t v s name weight result =
        .error (if (applyTxResponse t s name weight result).errors.dedup.length = 1 ∧
                   (applyTxResponse t s name weight result).good_stake = 0
                then .v ((applyTxResponse t s name weight result).errors.dedup.headD
                          .unexpectedResponse)
                else .quorumNotReached (applyTxResponse t s name weight result).errors.dedup)) := by
  constructor
  · constructor
    · rintro ⟨e, he⟩
      by_contra hbad
      simp only [processTxReduce, if_neg hbad] at he
      split at he <;> simp at he
    · intro hbad
      exact ⟨classifyQuorumFailure (applyTxResponse t s name weight result).errors
        (applyTxResponse t s name weight result).good_stake,
        by simp only [processTxReduce, if_pos hbad]⟩
  · intro hbad
    simp only [processTxReduce, if_pos hbad, classifyQuorumFailure]

/-- Witness for C3: all stake errors with a single distinct error and
`good_stake = 0` surfaces the error verbatim. -/
theorem process_transaction_error_classification_witness :
    processTxReduce 3 2 ⟨[], none, [VError.code 5], 0, 2⟩ 1 1 (.error (VError.code 5)) =
      .error (.v (VError.code 5)) := by
  have h := (process_transaction_error_classification 3 2 ⟨[], none, [VError.code 5], 0, 2⟩
    1 1 (.error (VError.code 5))).2 (by decide)
  simpa using h

/-- Setting a key in the association-map model makes its lookup return
the written value. -/
theorem stakeOf_mapSet (m : List (EffectsDigest × StakeUnit)) (d : EffectsDigest)
    (x : StakeUnit) : stakeOf (mapSet m d x) d = x := by
  simp [stakeOf, mapSet, List.find?]

/-- `execute_cert_to_true_effects`'s per-response update never changes
`true_effects` (the field is only written together with an immediate
`End`). -/
theorem execApply_true_effects (validity : StakeUnit) (s : ExecState) (name : AuthorityName)
    (weight : StakeUnit) (r : Except VError (Option SignedEffects)) :
    ((execApply validity s name weight r).1).true_effects = s.true_effects := by
  rcases r with e | op
  · simp [execApply]
  · rcases op with - | eff
    · simp [execApply]
    · by_cases hv : stakeOf s.digests eff.digest + weight ≥ validity <;>
        simp [execApply, hv]

/-- C5: `execute_cert_to_true_effects` ends the fan-out with `End` and the
received signed effects as soon as any one effects digest accumulates
stake reaching the validity threshold; in every other step it ends the
fan-out exactly when `remaining_weight + good_weight < validity` without
touching `true_effects`; and a run whose final state has no true effects
returns `TooManyIncorrectAuthorities` over the collected errors. -/
theorem execute_cert_termination (validity totalWeight : StakeUnit)
    (w : AuthorityName → StakeUnit) :
    (∀ (s : ExecState) (name : AuthorityName) (weight : StakeUnit) (eff : SignedEffects),
      stakeOf s.digests eff.digest + weight ≥ validity →
      ∃ s1, execCertReduce validity totalWeight s name weight (.ok (some eff)) =
          .ok (.finish s1) ∧ s1.true_effects = some eff ∧
          stakeOf s1.digests eff.digest ≥ validity) ∧
    (∀ (s : ExecState) (name : AuthorityName) (weight : StakeUnit)
        (r : Except VError (Option SignedEffects)) (s1 : ExecState),
      execApply validity s name weight r = (s1, none) →
      ((totalWeight - s1.cumulative_weight + s1.good_weight < validity ↔
        execCertReduce validity totalWeight s name weight r = .ok (.finish s1)) ∧
       s1.true_effects = s.true_effects)) ∧
    (∀ (rs : List (AuthorityName × Except VError (Option SignedEffects)))
        (o : QDOutcome ExecState),
      quorumLoop (execCertReduce validity totalWeight) w initialExecState rs = .ok o →
      o.state.true_effects = none →
      runExecuteCert validity totalWeight w rs =
        .error (.tooManyIncorrectAuthorities o.state.errors)) := by
  refine ⟨?_, ?_, ?_⟩
  · intro s name weight eff hge
    refine ⟨{ cumulative_weight := s.cumulative_weight + weight,
              good_weight := s.good_weight + weight,
              digests := mapSet s.digests eff.digest (stakeOf s.digests eff.digest + weight),
              true_effects := some eff,
              errors := s.errors }, ?_, rfl, ?_⟩
    · simp [execCertReduce, execApply, hge]
    · simpa [stakeOf_mapSet] using hge
  · intro s name weight r s1 happly
    constructor
    · constructor
      · intro hlow
        simp [execCertReduce, happly, hlow]
      · intro hred
        by_contra hlow
        simp [execCertReduce, happly, hlow] at hred
    · have := execApply_true_effects validity s name weight r
      rw [happly] at this
      exact this
  · intro rs o hloop htrue
    simp [runExecuteCert, hloop, htrue]

/-- Witness for C5: validity 1 is reached by the first effects response,
ending the fan-out with those effects. -/
theorem execute_cert_termination_witness :
    ∃ s1, execCertReduce 1 4 initialExecState 0 1 (.ok (some ⟨5, 0⟩)) =
        .ok (.finish s1) ∧ s1.true_effects = some ⟨5, 0⟩ ∧
        stakeOf s1.digests 5 ≥ 1 :=
  (execute_cert_termination 1 4 (fun _ => 1)).1 initialExecState 0 1 ⟨5, 0⟩ (by decide)

/-- The error map of the hedged event loop is empty exactly when no
request completion was folded into it (the interval timer alone records
nothing). -/
theorem runHedgeEvents_empty_iff (events : List HedgeEvent) :
    ∀ (m0 m : List (AuthorityName × VError)), runHedgeEvents events m0 = .inr m →
      (m = [] ↔ (m0 = [] ∧ ∀ ev ∈ events, ev = HedgeEvent.startNext)) := by
  induction events with
  | nil =>
    intro m0 m h
    simp [runHedgeEvents] at h
    simp [h]
  | cons ev es ih =>
    intro m0 m h
    match ev with
    | .startNext =>
      have := ih m0 m (by simpa [runHedgeEvents] using h)
      simpa using this
    | .request n .elapsed =>
      have := ih (errMapInsert m0 n .timeoutErr) m (by simpa [runHedgeEvents] using h)
      simp [errMapInsert] at this
      simp [this]
    | .request n (.completed (.error e)) =>
      have := ih (errMapInsert m0 n e) m (by simpa [runHedgeEvents] using h)
      simp [errMapInsert] at this
      simp [this]
    | .request n (.completed (.ok x)) =>
      simp [runHedgeEvents] at h

/-- C7: when `quorum_once_with_timeout` is given a total timeout and that
timeout elapses before any authority succeeds (the processed event prefix
produced no success), the call fails with `TimeoutError` when the
per-validator error map is empty — equivalently, when no request
completion was recorded — and with `TooManyIncorrectAuthorities` carrying
the recorded per-validator errors otherwise. -/
theorem quorum_once_total_timeout_classification (events : List HedgeEvent)
    (m : List (AuthorityName × VError)) (h : runHedgeEvents events [] = .inr m) :
    quorumOnceTotalTimeout events =
      .error (if m = [] then .timeoutError else .tooManyIncorrectAuthorities m) ∧
    (m = [] ↔ ∀ ev ∈ events, ev = HedgeEvent.startNext) := by
  constructor
  · cases m <;> simp [quorumOnceTotalTimeout, h, List.isEmpty]
  · have := runHedgeEvents_empty_iff events [] m h
    simpa using this

/-- Witness for C7: a single failed request makes a timed-out call fail
with `TooManyIncorrectAuthorities` carrying that recorded error. -/
theorem quorum_once_total_timeout_classification_witness :
    quorumOnceTotalTimeout [.request 3 (.completed (.error (.code 9)))] =
      .error (.tooManyIncorrectAuthorities [(3, .code 9)]) := by
  have h := (quorum_once_total_timeout_classification
    [.request 3 (.completed (.error (.code 9)))] [(3, .code 9)] (by rfl)).1
  simpa using h

/-- C8 counterexample: when `process_transaction` succeeds and
`process_certificate` then fails, `execute_transaction` returns an error
yet `total_tx_certificates_created` has been incremented — refuting the
claim that the counter is not incremented when `execute_transaction`
returns an error. -/
theorem execute_transaction_counter_counterexample :
    (executeTransaction (.ok ⟨[]⟩) (fun _ => .error .authorityUpdateFailure)).1 =
      .error .authorityUpdateFailure ∧
    (executeTransaction (.ok ⟨[]⟩) (fun _ => .error .authorityUpdateFailure)).2 = 1 :=
  ⟨rfl, rfl⟩

/-- C8 (amended): `total_tx_certificates_created` is incremented exactly
once per `execute_transaction` call whose `process_transaction` phase
succeeds (one increment per certificate created, even when the subsequent
`process_certificate` fails), and not incremented when
`process_transaction` fails; in particular every successful
`execute_transaction` increments it exactly once. -/
theorem execute_transaction_counter (pt : Except AggError Certificate)
    (pc : Certificate → Except AggError EffectsDigest) :
    (∀ c, pt = .ok c → (executeTransaction pt pc).2 = 1) ∧
    (∀ e, pt = .error e → (executeTransaction pt pc).2 = 0) ∧
    (∀ ce, (executeTransaction pt pc).1 = .ok ce → (executeTransaction pt pc).2 = 1) := by
  rcases pt with e | c
  · refine ⟨by simp, fun _ _ => rfl, ?_⟩
    intro ce hce
    simp [executeTransaction] at hce
  · refine ⟨fun _ _ => ?_, by simp, fun ce _ => ?_⟩ <;>
      · rcases hpc : pc c with e1 | eff <;> simp [executeTransaction, hpc]

/-- Witness for C8 (amended): a fully successful call increments the
counter exactly once. -/
theorem execute_transaction_counter_witness :
    (executeTransaction (.ok ⟨[]⟩) (fun _ => .ok 4)).2 = 1 :=
  (execute_transaction_counter (.ok ⟨[]⟩) (fun _ => .ok 4)).1 ⟨[]⟩ rfl

/-- C9: the three panic paths reached on untrusted input, evaluated in
the embedding where `none` marks the Rust panic: indexing the client map
by an unknown `source_authority` in `sync_authority_source_to_destination`
(marked `TODO(panic)` in the source), indexing it by an unknown
`destination_authority` in `sync_certificate_to_authority_with_timeout`,
and unwrapping the first element of an empty shuffle in
`quorum_once_inner` — contradicting the claim that these operations
return an error value rather than panic. -/
theorem aggregator_panic_paths :
    syncSourceClientLookup [(0, 0)] 1 = none ∧
    syncDestClientLookup [(0, 0)] 1 = none ∧
    firstShuffledAuthority [] = none := by
  refine ⟨rfl, rfl, rfl⟩

/-- C10: in the reducers of `get_object_by_id` and
`get_all_owned_objects`, every responding authority's stake is added to
`good_weight` whether or not its response was an error; an erroring
authority's stake is simultaneously added to `bad_weight` (failing with
`TooManyIncorrectAuthorities` when `bad_weight > validity`), and the wait
budget shrinks to the post-quorum timeout exactly when the so-inflated
`good_weight` reaches the quorum threshold. -/
theorem owned_object_reducers_double_count (threshold validity postQ : StakeUnit)
    (sg : GetObjectState) (so : OwnedObjectState) (name : AuthorityName)
    (weight : StakeUnit) :
    (∀ e : VError,
      (validity < sg.bad_weight + weight →
        getObjectByIdReduce threshold validity postQ sg name weight (.error e) =
          .error (.tooManyIncorrectAuthorities
            (errsOfResponses (sg.responses ++ [(name, .error e)])))) ∧
      (¬ validity < sg.bad_weight + weight →
        getObjectByIdReduce threshold validity postQ sg name weight (.error e) =
          if sg.good_weight + weight < threshold then
            .ok (.more { sg with good_weight := sg.good_weight + weight,
                                 bad_weight := sg.bad_weight + weight,
                                 responses := sg.responses ++ [(name, .error e)] })
          else
            .ok (.moreWithTimeout { sg with good_weight := sg.good_weight + weight,
                                            bad_weight := sg.bad_weight + weight,
                                            responses := sg.responses ++ [(name, .error e)] }
              postQ))) ∧
    (∀ x : Nat,
      getObjectByIdReduce threshold validity postQ sg name weight (.ok x) =
        if sg.good_weight + weight < threshold then
          .ok (.more { sg with good_weight := sg.good_weight + weight,
                               responses := sg.responses ++ [(name, .ok x)] })
        else
          .ok (.moreWithTimeout { sg with good_weight := sg.good_weight + weight,
                                          responses := sg.responses ++ [(name, .ok x)] }
            postQ)) ∧
    (∀ e : VError,
      (validity < so.bad_weight + weight →
        getAllOwnedReduce threshold validity postQ so name weight (.error e) =
          .error (.tooManyIncorrectAuthorities (so.errors ++ [(name, e)]))) ∧
      (¬ validity < so.bad_weight + weight →
        getAllOwnedReduce threshold validity postQ so name weight (.error e) =
          if so.good_weight + weight < threshold then
            .ok (.more { so with good_weight := so.good_weight + weight,
                                 bad_weight := so.bad_weight + weight,
                                 errors := so.errors ++ [(name, e)] })
          else
            .ok (.moreWithTimeout { so with good_weight := so.good_weight + weight,
                                            bad_weight := so.bad_weight + weight,
                                            errors := so.errors ++ [(name, e)] } postQ))) ∧
    (∀ ids : List Nat,
      getAllOwnedReduce threshold validity postQ so name weight (.ok ids) =
        if so.good_weight + weight < threshold then
          .ok (.more { so with good_weight := so.good_weight + weight,
                               responded_authorities := so.responded_authorities ++ [name],
                               object_map := ids.foldl (fun m o => objMapAdd m o name)
                                 so.object_map })
        else
          .ok (.moreWithTimeout { so with good_weight := so.good_weight + weight,
                                          responded_authorities :=
                                            so.responded_authorities ++ [name],
                                          object_map := ids.foldl
                                            (fun m o => objMapAdd m o name) so.object_map }
            postQ)) := by
  refine ⟨fun e => ⟨fun hbad => ?_, fun hbad => ?_⟩, fun x => ?_,
    fun e => ⟨fun hbad => ?_, fun hbad => ?_⟩, fun ids => ?_⟩
  · simp [getObjectByIdReduce, hbad]
  · simp only [getObjectByIdReduce, if_neg hbad]
  · simp only [getObjectByIdReduce]
  · simp [getAllOwnedReduce, hbad]
  · simp only [getAllOwnedReduce, if_neg hbad]
  · simp only [getAllOwnedReduce]

/-- Witness for C10: with validity 2 already consumed by 2 units of bad
stake, one more erroring unit fails the `get_object_by_id` query with the
collected errors. -/
theorem owned_object_reducers_double_count_witness :
    getObjectByIdReduce 3 2 7 ⟨2, 2, [(0, .error (.code 1))]⟩ 1 1 (.error (.code 2)) =
      .error (.tooManyIncorrectAuthorities [(0, .code 1), (1, .code 2)]) := by
  have h := ((owned_object_reducers_double_count 3 2 7 ⟨2, 2, [(0, .error (.code 1))]⟩
    ⟨0, 0, [], [], []⟩ 1 1).1 (.code 2)).1 (by decide)
  simpa [errsOfResponses] using h

/-- C2: the source loop of `sync_authority_source_to_destination` keys
`processed`/`attempted` by the OUTER certificate's digest (line 268), not
by the popped certificate's.  At the concrete input below — certificate
`0` whose dependency is certificate `1`, with a destination that rejects
`0` with `ObjectErrors` and accepts `1` — the source loop marks digest
`0` processed after handling only the dependency `1`, then skips
certificate `0` itself and reports success with only `1` ever applied,
while the walk keyed by the popped certificate's digest (as the claim and
the spec prescribe) retries certificate `0` and fails with
`AuthorityInformationUnavailable`. -/
theorem sync_digest_keying_divergence :
    syncAuthoritySourceToDestination keyingOracles ⟨0⟩ 10 = (.success, [1]) ∧
    syncSpecKeyedEntry keyingOracles ⟨0⟩ 10 =
      (.failure .authorityInformationUnavailable, [1]) :=
  ⟨rfl, rfl⟩

end AuthAgg
